import Mathlib

/-!
Verification of the deferred-execution task primitive in `src/common/Task.hpp`
(namespace `DcgmNs`): `NamedBasicTask`, the `Task<void>` specialization,
`TaskWithAttempts`, the `OptionalNestedType` trait and the `make_task` helpers.

Embedding choices:
* A task's `m_func` (a `std::function<std::optional<T>()>`) is modelled as a
  script `Nat → FnOutcome T` giving the outcome of its n-th invocation, together
  with a `calls` counter; `Run` consumes exactly one script entry per call, so
  "invoked exactly once per `Run`" is the statement `calls' = calls + 1`.
* A C++ exception (`std::exception_ptr`) is an abstract value `Exn`.
* The `std::promise` held in `m_promise` is modelled by its observable fate:
  `pending`, `resolved v` (after `set_value`), `rejected e` (after
  `set_exception`), or `broken` (destroyed while still pending, which makes the
  waiting future observe `std::future_error` / broken promise).
* The ghost field `released` records, in order, the final fates of promises the
  task destroyed without settling them (by `SetPromise` replacement or by
  `TaskWithAttempts`'s `m_promise.reset()`); it corresponds to what the futures
  of those destroyed promises observe.
* `m_attempts` is a C++ `int`; it is modelled as an unbounded `Int` (decrementing
  `INT_MIN` is undefined behaviour in C++, so no wraparound is modelled).
* The `if constexpr (std::is_same_v<void, PromiseType>)` branch in `Run` is
  modelled by the parameter `setValue : T → P`: `id` for `NamedBasicTask<T>`
  (set_value gets the produced value) and `fun _ => ()` for
  `NamedBasicTask<int, void>` (set_value takes no argument).
-/

namespace DcgmNs

/-- ITask::RunResult (Task.hpp lines 56-60). -/
inductive RunResult
  | Ok
  | Deferred
deriving DecidableEq

/-- An abstract C++ exception value as carried by a `std::exception_ptr`. -/
structure Exn where
  code : Nat
deriving DecidableEq

/-- Outcome of one invocation of the wrapped `std::function` returning
`std::optional`: an engaged optional, an empty optional, or a throw. -/
inductive FnOutcome (T : Type)
  | yields (v : T)
  | noValue
  | throws (e : Exn)
deriving DecidableEq

/-- Observable state of a `std::promise` from the point of view of the future
attached to it. -/
inductive PromiseFate (P : Type)
  | pending
  | resolved (v : P)
  | rejected (e : Exn)
  | broken
deriving DecidableEq

/-- Destroying a `std::promise`: a still-pending promise becomes broken (its
future observes `std::future_error`), a settled one keeps its settled state. -/
def releaseFate {P : Type} : PromiseFate P → PromiseFate P
  | PromiseFate.pending => PromiseFate.broken
  | f => f

/-- State of a `NamedBasicTask<T, P>` (Task.hpp lines 97-196): the wrapped
function (as an invocation script plus call counter), the optional owned
promise `m_promise`, the immutable `m_taskName`, and the ghost trace
`released` of promises destroyed unsettled by the task. -/
structure TaskState (T P : Type) where
  m_func : Nat → FnOutcome T
  calls : Nat
  m_promise : Option (PromiseFate P)
  released : List (PromiseFate P)
  m_taskName : String

namespace NamedBasicTask

/-- NamedBasicTask::NamedBasicTask(std::string, std::function) (Task.hpp
lines 108-111): stores the function and the name; no promise attached yet. -/
def mk {T P : Type} (taskName : String) (func : Nat → FnOutcome T) : TaskState T P :=
  { m_func := func, calls := 0, m_promise := none, released := [], m_taskName := taskName }

/-- NamedBasicTask::SetPromise (Task.hpp lines 140-143):
`m_promise = std::make_unique<std::promise<PromiseType>>(std::move(promise))`.
The previously held promise, if any, is destroyed by the unique_ptr
reassignment; its release fate is appended to the ghost trace. -/
def SetPromise {T P : Type} (st : TaskState T P) (p : PromiseFate P) : TaskState T P :=
  { st with
    m_promise := some p
    released := st.released ++ (st.m_promise.map releaseFate).toList }

/-- NamedBasicTask::Run (Task.hpp lines 151-182). One invocation of `m_func`
inside a try block: empty optional returns Deferred; an engaged optional
resolves the promise (when attached) and returns Ok; a throw is caught,
rejects the promise (when attached) and returns Ok. `setValue` models the
`if constexpr` dispatch between `set_value(std::move(result.value()))` and
the `void` overload `set_value()`. -/
def Run {T P : Type} (setValue : T → P) (st : TaskState T P) :
    RunResult × TaskState T P :=
  match st.m_func st.calls with
  | FnOutcome.noValue =>
      (RunResult.Deferred, { st with calls := st.calls + 1 })
  | FnOutcome.yields v =>
      (RunResult.Ok,
       { st with
         calls := st.calls + 1
         m_promise := st.m_promise.map fun _ => PromiseFate.resolved (setValue v) })
  | FnOutcome.throws e =>
      (RunResult.Ok,
       { st with
         calls := st.calls + 1
         m_promise := st.m_promise.map fun _ => PromiseFate.rejected e })

/-- NamedBasicTask::GetName (Task.hpp lines 187-190): returns `m_taskName`. -/
def GetName {T P : Type} (st : TaskState T P) : String := st.m_taskName

end NamedBasicTask

/-- The name generated by the unnamed constructor (Task.hpp line 124):
`fmt::format` of "Unknown at " followed by the object address in `#x` style
(a 0x prefix and lowercase hex digits, as fmt produces for `size_t`). -/
def autoName (addr : Nat) : String :=
  "Unknown at " ++ ("0x" ++ String.mk (Nat.toDigits 16 addr))

/-- NamedBasicTask::NamedBasicTask(std::function) (Task.hpp lines 123-125):
delegates to the two-argument constructor with the generated name. -/
def mkUnnamed {T P : Type} (addr : Nat) (func : Nat → FnOutcome T) : TaskState T P :=
  NamedBasicTask.mk (autoName addr) func

/-- make_task(taskName, func) (Task.hpp lines 326-333): builds a
`Task<OptionalNestedType_t<...>>`, i.e. a `NamedBasicTask<T>` (PromiseType = T)
holding the name verbatim. -/
def make_task {T : Type} (taskName : String) (func : Nat → FnOutcome T) :
    TaskState T T :=
  NamedBasicTask.mk taskName func

/-- make_task(func) (Task.hpp lines 314-318): the unnamed overload. -/
def make_task_unnamed {T : Type} (addr : Nat) (func : Nat → FnOutcome T) :
    TaskState T T :=
  mkUnnamed addr func

/-- Outcome of one invocation of a `std::function<void()>`: a normal return or
a throw. -/
inductive VoidOutcome
  | returns
  | throws (e : Exn)
deriving DecidableEq

/-- The lambda wrapped around a void callable by `Task<void>`'s constructors
(Task.hpp lines 214-217 and 225-228): `std::invoke(func); return 0;` — so the
wrapped function yields the int 0 whenever the callable returns normally, and
propagates the callable's throw otherwise. It can never produce an empty
optional. -/
def voidWrapper (f : Nat → VoidOutcome) : Nat → FnOutcome Int :=
  fun n =>
    match f n with
    | VoidOutcome.returns => FnOutcome.yields 0
    | VoidOutcome.throws e => FnOutcome.throws e

namespace TaskVoid

/-- Task<void>::Task(std::string, std::function<void()>) (Task.hpp
lines 213-218): a `NamedBasicTask<int, void>` over the wrapping lambda. -/
def mk (taskName : String) (f : Nat → VoidOutcome) : TaskState Int Unit :=
  NamedBasicTask.mk taskName (voidWrapper f)

/-- Task<void> inherits NamedBasicTask<int, void>::Run; PromiseType is void so
the `if constexpr` branch calls `set_value()` (modelled by `fun _ => ()`). -/
def Run (st : TaskState Int Unit) : RunResult × TaskState Int Unit :=
  NamedBasicTask.Run (fun _ => ()) st

end TaskVoid

/-- State of a `TaskWithAttempts<T>` (Task.hpp lines 273-308): the base
`NamedBasicTask<T>` state plus the `int m_attempts` counter. -/
structure AttemptsState (T : Type) where
  base : TaskState T T
  m_attempts : Int

namespace TaskWithAttempts

/-- TaskWithAttempts::TaskWithAttempts(std::string, int, std::function)
(Task.hpp lines 279-282). -/
def mk {T : Type} (taskName : String) (attempts : Int) (func : Nat → FnOutcome T) :
    AttemptsState T :=
  { base := NamedBasicTask.mk taskName func, m_attempts := attempts }

/-- SetPromise is inherited from NamedBasicTask (Task.hpp lines 140-143). -/
def SetPromise {T : Type} (st : AttemptsState T) (p : PromiseFate T) :
    AttemptsState T :=
  { st with base := NamedBasicTask.SetPromise st.base p }

/-- TaskWithAttempts::Run (Task.hpp lines 289-305): runs the base; on Deferred
decrements `m_attempts` and, exactly when the decremented value equals 0,
resets the promise (destroying it unsettled) and reports Ok; otherwise returns
the base result. -/
def Run {T : Type} (st : AttemptsState T) : RunResult × AttemptsState T :=
  let r := NamedBasicTask.Run id st.base
  if r.1 = RunResult.Deferred then
    if st.m_attempts - 1 = 0 then
      (RunResult.Ok,
       { base :=
           { r.2 with
             m_promise := none
             released := r.2.released ++ (r.2.m_promise.map releaseFate).toList }
         m_attempts := st.m_attempts - 1 })
    else
      (r.1, { base := r.2, m_attempts := st.m_attempts - 1 })
  else
    (r.1, { base := r.2, m_attempts := st.m_attempts })

/-- Iterate TaskWithAttempts::Run: the state after k scheduler turns. -/
def runIter {T : Type} (st : AttemptsState T) : Nat → AttemptsState T
  | 0 => st
  | k + 1 => (Run (runIter st k)).2

end TaskWithAttempts

/-- C++ types as seen by the `OptionalNestedType` trait (Task.hpp lines 31-47):
`void`, some non-optional payload type (indexed by an identifier), or
`std::optional` of a type. -/
inductive CppTy
  | voidTy
  | scalar (id : Nat)
  | optional (t : CppTy)
deriving DecidableEq

/-- Whether a type is a `std::optional` instantiation. -/
def CppTy.isOptional : CppTy → Bool
  | CppTy.optional _ => true
  | _ => false

/-- OptionalNestedType (Task.hpp lines 31-41): the partial specialization peels
one `std::optional` layer and recurses; the primary template is the identity. -/
def OptionalNestedType : CppTy → CppTy
  | CppTy.optional t => OptionalNestedType t
  | t => t

/-- `std::optional` nested k times around a type. -/
def nestOptional : Nat → CppTy → CppTy
  | 0, t => t
  | k + 1, t => CppTy.optional (nestOptional k t)

/-- The result type of the Task built by make_task / make_task_with_attempts
from a callable whose return type is `ret`:
`Task<OptionalNestedType_t<std::invoke_result_t<Fn>>>` (Task.hpp lines
314-318, 326-333, 341-348, 357-364). -/
def makeTaskResultTy (ret : CppTy) : CppTy := OptionalNestedType ret

/-- A TaskWithAttempts as the producer uses it: constructed with the given
attempt budget over func, with a pending promise attached (the caller has
already taken the corresponding future). -/
def attemptsTaskWithPromise {T : Type} (name : String) (attempts : Int)
    (func : Nat → FnOutcome T) : AttemptsState T :=
  TaskWithAttempts.SetPromise (TaskWithAttempts.mk name attempts func)
    PromiseFate.pending

end DcgmNs

open DcgmNs

/-- C7: Run()'s return value (Ok or Deferred) is identical whether or not a
promise has been attached: two task states that differ only in the promise
slot yield equal Run results. -/
theorem run_result_independent_of_promise {T P : Type} (setValue : T → P)
    (st : TaskState T P) (p q : Option (PromiseFate P)) :
    (NamedBasicTask.Run setValue { st with m_promise := p }).1 =
      (NamedBasicTask.Run setValue { st with m_promise := q }).1 := by
  cases h : st.m_func st.calls <;> simp [NamedBasicTask.Run, h]

/-- C8: OptionalNestedType flattens k nested std::optional layers around a
non-optional payload type to that payload type, and the result type computed
by make_task / make_task_with_attempts for a callable returning such a type is
that innermost type. -/
theorem optional_nested_type_flattens (t : CppTy) (k : Nat)
    (h : t.isOptional = false) :
    OptionalNestedType (nestOptional k t) = t ∧
      makeTaskResultTy (nestOptional k t) = t := by
  have key : OptionalNestedType (nestOptional k t) = t := by
    induction k with
    | zero =>
        cases t with
        | voidTy => rfl
        | scalar i => rfl
        | optional s => simp [CppTy.isOptional] at h
    | succ k ih => exact ih
  exact ⟨key, key⟩

/-- C8 witness: three optional layers around the payload type with id 5
flatten to that payload type. -/
theorem optional_nested_type_flattens_witness :
    OptionalNestedType (nestOptional 3 (CppTy.scalar 5)) = CppTy.scalar 5 :=
  (optional_nested_type_flattens (CppTy.scalar 5) 3 rfl).1

/-- C10: the void specialization Task<void> can never defer: whatever the void
callable does on this invocation (return normally or throw), Run returns Ok
and never Deferred; when the callable returns normally the wrapper yields the
value 0, so the optional is always engaged. -/
theorem task_void_never_defers (f : Nat → VoidOutcome) (st : TaskState Int Unit)
    (h : st.m_func = voidWrapper f) :
    (TaskVoid.Run st).1 = RunResult.Ok ∧
      (f st.calls = VoidOutcome.returns → st.m_func st.calls = FnOutcome.yields 0) := by
  have h1 : st.m_func st.calls = voidWrapper f st.calls := by rw [h]
  cases hf : f st.calls <;>
    simp [TaskVoid.Run, NamedBasicTask.Run, h1, voidWrapper, hf]

/-- C10 witness: a concrete Task<void> over a normally-returning callable
returns Ok from Run. -/
theorem task_void_never_defers_witness :
    (TaskVoid.Run (TaskVoid.mk "void-task" (fun _ => VoidOutcome.returns))).1 =
      RunResult.Ok :=
  (task_void_never_defers (fun _ => VoidOutcome.returns)
    (TaskVoid.mk "void-task" (fun _ => VoidOutcome.returns)) rfl).1

/-- C4: evaluation of TaskWithAttempts::Run at the failing input. Constructed
with attempts = 0 over a never-ready callable and a pending promise attached,
the first Run does NOT exhaust: it decrements m_attempts to -1, keeps the
pending promise, and returns Deferred — `--m_attempts == 0` can never fire
from a non-positive starting value, contradicting the claimed
release-promise-and-return-Ok behaviour. -/
theorem task_with_attempts_zero_first_run :
    (TaskWithAttempts.Run
        (TaskWithAttempts.SetPromise
          (TaskWithAttempts.mk "t" 0 (fun _ => (FnOutcome.noValue : FnOutcome Nat)))
          PromiseFate.pending)).1 = RunResult.Deferred ∧
    (TaskWithAttempts.Run
        (TaskWithAttempts.SetPromise
          (TaskWithAttempts.mk "t" 0 (fun _ => (FnOutcome.noValue : FnOutcome Nat)))
          PromiseFate.pending)).2.base.m_promise = some PromiseFate.pending ∧
    (TaskWithAttempts.Run
        (TaskWithAttempts.SetPromise
          (TaskWithAttempts.mk "t" 0 (fun _ => (FnOutcome.noValue : FnOutcome Nat)))
          PromiseFate.pending)).2.m_attempts = -1 :=
  ⟨rfl, rfl, rfl⟩

/-- C1: one Run call invokes attempt_fn exactly once (the call counter
advances by exactly one); an empty optional gives Deferred with the promise
slot and release trace untouched; a produced value gives Ok and, when a
pending promise is attached, resolves it with exactly setValue of that value
(setValue = id for Task of T, setValue discarding the value for the void
specialization, which resolves the empty promise); with no promise attached
the slot stays empty. -/
theorem run_invokes_once_and_settles {T P : Type} (setValue : T → P)
    (st : TaskState T P) :
    (NamedBasicTask.Run setValue st).2.calls = st.calls + 1 ∧
    (st.m_func st.calls = FnOutcome.noValue →
      (NamedBasicTask.Run setValue st).1 = RunResult.Deferred ∧
      (NamedBasicTask.Run setValue st).2.m_promise = st.m_promise ∧
      (NamedBasicTask.Run setValue st).2.released = st.released) ∧
    (∀ v, st.m_func st.calls = FnOutcome.yields v →
      (NamedBasicTask.Run setValue st).1 = RunResult.Ok ∧
      (st.m_promise = some PromiseFate.pending →
        (NamedBasicTask.Run setValue st).2.m_promise =
          some (PromiseFate.resolved (setValue v))) ∧
      (st.m_promise = none →
        (NamedBasicTask.Run setValue st).2.m_promise = none)) := by
  cases h : st.m_func st.calls with
  | yields v =>
      refine ⟨by simp [NamedBasicTask.Run, h], fun hv => ?_, fun w hw => ?_⟩
      · cases hv
      · injection hw with hvw
        subst hvw
        refine ⟨by simp [NamedBasicTask.Run, h], fun hp => ?_, fun hp => ?_⟩
        · simp [NamedBasicTask.Run, h, hp]
        · simp [NamedBasicTask.Run, h, hp]
  | noValue =>
      refine ⟨by simp [NamedBasicTask.Run, h], fun hv => ?_, fun w hw => ?_⟩
      · exact ⟨by simp [NamedBasicTask.Run, h], by simp [NamedBasicTask.Run, h],
          by simp [NamedBasicTask.Run, h]⟩
      · cases hw
  | throws e =>
      refine ⟨by simp [NamedBasicTask.Run, h], fun hv => ?_, fun w hw => ?_⟩
      · cases hv
      · cases hw

/-- C1 witness: a ready task with a pending promise attached resolves it with
exactly the produced value 7. -/
theorem run_invokes_once_and_settles_witness :
    (NamedBasicTask.Run id
        (NamedBasicTask.SetPromise (make_task "t" (fun _ => FnOutcome.yields (7 : Nat)))
          PromiseFate.pending)).2.m_promise = some (PromiseFate.resolved 7) :=
  ((run_invokes_once_and_settles id
      (NamedBasicTask.SetPromise (make_task "t" (fun _ => FnOutcome.yields (7 : Nat)))
        PromiseFate.pending)).2.2 7 rfl).2.1 rfl

/-- C2: Run never propagates a failure to its caller: when attempt_fn throws,
Run still returns Ok; with a pending promise attached, the promise is rejected
with exactly the captured exception; with no promise attached the failure is
swallowed (no promise is settled and nothing is recorded). -/
theorem run_converts_failures {T P : Type} (setValue : T → P)
    (st : TaskState T P) (e : Exn)
    (h : st.m_func st.calls = FnOutcome.throws e) :
    (NamedBasicTask.Run setValue st).1 = RunResult.Ok ∧
    (st.m_promise = some PromiseFate.pending →
      (NamedBasicTask.Run setValue st).2.m_promise =
        some (PromiseFate.rejected e)) ∧
    (st.m_promise = none →
      (NamedBasicTask.Run setValue st).2.m_promise = none ∧
      (NamedBasicTask.Run setValue st).2.released = st.released) := by
  refine ⟨by simp [NamedBasicTask.Run, h], fun hp => ?_, fun hp => ?_⟩
  · simp [NamedBasicTask.Run, h, hp]
  · exact ⟨by simp [NamedBasicTask.Run, h, hp], by simp [NamedBasicTask.Run, h, hp]⟩

/-- C2 witness: a throwing task with a pending promise attached returns Ok and
rejects the promise with the thrown exception. -/
theorem run_converts_failures_witness :
    (NamedBasicTask.Run id
        (NamedBasicTask.SetPromise
          (make_task "t" (fun _ => (FnOutcome.throws ⟨3⟩ : FnOutcome Nat)))
          PromiseFate.pending)).2.m_promise = some (PromiseFate.rejected ⟨3⟩) :=
  ((run_converts_failures id
      (NamedBasicTask.SetPromise
        (make_task "t" (fun _ => (FnOutcome.throws ⟨3⟩ : FnOutcome Nat)))
        PromiseFate.pending) ⟨3⟩ rfl).2.1) rfl

/-- C5: across one TaskWithAttempts::Run call the remaining-attempts counter
never increases: it drops by exactly one when the base Run result is Deferred
and is unchanged when the base Run result is Ok. -/
theorem attempts_counter_monotone {T : Type} (st : AttemptsState T) :
    (TaskWithAttempts.Run st).2.m_attempts ≤ st.m_attempts ∧
    ((NamedBasicTask.Run id st.base).1 = RunResult.Deferred →
      (TaskWithAttempts.Run st).2.m_attempts = st.m_attempts - 1) ∧
    ((NamedBasicTask.Run id st.base).1 = RunResult.Ok →
      (TaskWithAttempts.Run st).2.m_attempts = st.m_attempts) := by
  cases hr : (NamedBasicTask.Run id st.base).1 with
  | Ok => simp [TaskWithAttempts.Run, hr]
  | Deferred =>
      by_cases ha : st.m_attempts - 1 = 0
      all_goals simp [TaskWithAttempts.Run, hr, ha]
      all_goals omega

/-- C5 witness: a deferred base run on a concrete task with 5 attempts leaves
the counter at 4. -/
theorem attempts_counter_monotone_witness :
    (TaskWithAttempts.Run
        (TaskWithAttempts.mk "t" 5
          (fun _ => (FnOutcome.noValue : FnOutcome Nat)))).2.m_attempts = 4 :=
  (attempts_counter_monotone
      (TaskWithAttempts.mk "t" 5 (fun _ => (FnOutcome.noValue : FnOutcome Nat)))).2.1 rfl

/-- The generated placeholder name is never the empty string. -/
theorem autoName_ne_empty (addr : Nat) : autoName addr ≠ "" := by
  intro h
  have h1 := congrArg String.length h
  rw [autoName, String.length_append, String.length_append] at h1
  have h2 : ("Unknown at " : String).length = 11 := rfl
  have h3 : ("0x" : String).length = 2 := rfl
  have h4 : ("" : String).length = 0 := rfl
  omega

/-- C6: make_task(name, fn) reports GetName equal to name verbatim; the
unnamed factory generates the placeholder name, which is non-empty; and
GetName is stable, returning the same string after every operation of the
task's lifetime (Run and SetPromise) without any failure path. -/
theorem task_name_round_trip {T : Type} (name : String) (func : Nat → FnOutcome T)
    (addr : Nat) :
    NamedBasicTask.GetName (make_task name func) = name ∧
    NamedBasicTask.GetName (make_task_unnamed addr func) = autoName addr ∧
    autoName addr ≠ "" ∧
    (∀ (P : Type) (setValue : T → P) (st : TaskState T P),
      NamedBasicTask.GetName (NamedBasicTask.Run setValue st).2 =
        NamedBasicTask.GetName st ∧
      ∀ p, NamedBasicTask.GetName (NamedBasicTask.SetPromise st p) =
        NamedBasicTask.GetName st) := by
  refine ⟨rfl, rfl, autoName_ne_empty addr, ?_⟩
  intro P setValue st
  refine ⟨?_, fun p => rfl⟩
  cases h : st.m_func st.calls
  all_goals simp [NamedBasicTask.Run, NamedBasicTask.GetName, h]

/-- C9: SetPromise replaces any previously attached promise: the slot then
holds exactly the newly attached pending promise; attaching p2 over p1 leaves
p1 released broken (the task never resolves or rejects it); a subsequent
ready Run resolves only the newly attached promise, leaving the release trace
(and hence p1's broken fate) unchanged. -/
theorem set_promise_replaces {T P : Type} (setValue : T → P)
    (st : TaskState T P) (v : T) :
    (NamedBasicTask.SetPromise st PromiseFate.pending).m_promise =
      some PromiseFate.pending ∧
    ((NamedBasicTask.SetPromise
        (NamedBasicTask.SetPromise st PromiseFate.pending)
        PromiseFate.pending).released =
      (NamedBasicTask.SetPromise st PromiseFate.pending).released ++
        [PromiseFate.broken]) ∧
    (let st2 := NamedBasicTask.SetPromise
        (NamedBasicTask.SetPromise st PromiseFate.pending) PromiseFate.pending
     st2.m_func st2.calls = FnOutcome.yields v →
      (NamedBasicTask.Run setValue st2).2.m_promise =
        some (PromiseFate.resolved (setValue v)) ∧
      (NamedBasicTask.Run setValue st2).2.released = st2.released) := by
  refine ⟨rfl, rfl, fun h => ?_⟩
  simp only [NamedBasicTask.SetPromise] at h
  simp [NamedBasicTask.Run, NamedBasicTask.SetPromise, h]

/-- C9 witness: after attaching two pending promises in sequence, a ready Run
resolves the second promise with the produced value 9. -/
theorem set_promise_replaces_witness :
    (NamedBasicTask.Run id
        (NamedBasicTask.SetPromise
          (NamedBasicTask.SetPromise
            (make_task "t" (fun _ => FnOutcome.yields (9 : Nat)))
            PromiseFate.pending)
          PromiseFate.pending)).2.m_promise = some (PromiseFate.resolved 9) :=
  ((set_promise_replaces id
      (make_task "t" (fun _ => FnOutcome.yields (9 : Nat))) 9).2.2 rfl).1

/-- One scheduler turn of TaskWithAttempts over a not-ready invocation when
the decremented counter does not hit zero: the result is Deferred, the counter
drops by one, and the base state only advances its call counter. -/
theorem taskWithAttempts_run_deferred_step {T : Type} (st : AttemptsState T)
    (hf : st.base.m_func st.base.calls = FnOutcome.noValue)
    (ha : st.m_attempts ≠ 1) :
    TaskWithAttempts.Run st =
      (RunResult.Deferred,
       { base := { st.base with calls := st.base.calls + 1 },
         m_attempts := st.m_attempts - 1 }) := by
  have ha1 : ¬(st.m_attempts - 1 = 0) := by omega
  simp [TaskWithAttempts.Run, NamedBasicTask.Run, hf, ha1]

/-- One scheduler turn of TaskWithAttempts over a not-ready invocation when
the decremented counter hits zero: the result is Ok, the promise is reset
(destroyed, its release fate recorded), and the counter lands at zero. -/
theorem taskWithAttempts_run_exhaust_step {T : Type} (st : AttemptsState T)
    (hf : st.base.m_func st.base.calls = FnOutcome.noValue)
    (ha : st.m_attempts = 1) :
    TaskWithAttempts.Run st =
      (RunResult.Ok,
       { base := { st.base with
                   calls := st.base.calls + 1
                   m_promise := none
                   released := st.base.released ++
                     (st.base.m_promise.map releaseFate).toList },
         m_attempts := 0 }) := by
  simp [TaskWithAttempts.Run, NamedBasicTask.Run, hf, ha]

/-- Invariant of a TaskWithAttempts over a never-ready callable: before the
budget runs out, each turn just advances the call counter and decrements the
attempt counter, leaving the pending promise and empty release trace alone. -/
theorem taskWithAttempts_never_ready_invariant {T : Type}
    (func : Nat → FnOutcome T) (hf : ∀ n, func n = FnOutcome.noValue)
    (name : String) (N : Nat) :
    ∀ i, i < N →
      (TaskWithAttempts.runIter (attemptsTaskWithPromise name (N : Int) func) i).base.m_func
          = func ∧
      (TaskWithAttempts.runIter (attemptsTaskWithPromise name (N : Int) func) i).base.calls
          = i ∧
      (TaskWithAttempts.runIter (attemptsTaskWithPromise name (N : Int) func) i).base.m_promise
          = some PromiseFate.pending ∧
      (TaskWithAttempts.runIter (attemptsTaskWithPromise name (N : Int) func) i).base.released
          = [] ∧
      (TaskWithAttempts.runIter (attemptsTaskWithPromise name (N : Int) func) i).m_attempts
          = (N : Int) - i := by
  intro i
  induction i with
  | zero =>
      intro _
      refine ⟨rfl, rfl, rfl, rfl, ?_⟩
      show (N : Int) = (N : Int) - 0
      simp
  | succ i ih =>
      intro hiN
      obtain ⟨e1, e2, e3, e4, e5⟩ := ih (Nat.lt_of_succ_lt hiN)
      have hfc : (TaskWithAttempts.runIter (attemptsTaskWithPromise name (N : Int) func) i).base.m_func
          (TaskWithAttempts.runIter (attemptsTaskWithPromise name (N : Int) func) i).base.calls
          = FnOutcome.noValue := by
        rw [e1, hf]
      have han : (TaskWithAttempts.runIter (attemptsTaskWithPromise name (N : Int) func) i).m_attempts ≠ 1 := by
        rw [e5]; omega
      have hstep := taskWithAttempts_run_deferred_step _ hfc han
      rw [TaskWithAttempts.runIter, hstep]
      refine ⟨e1, by rw [e2], e3, e4, ?_⟩
      rw [e5]
      push_cast
      ring

/-- C3: a TaskWithAttempts with attempts = N ≥ 1 over a callable that never
yields a value (pending promise attached) returns Deferred on each of the
first N-1 Run calls; the N-th Run call returns Ok and destroys the attached
promise unresolved: afterwards the promise slot is empty and the release
trace records exactly one broken promise, which is what the waiting future
observes as a broken-promise condition. -/
theorem task_with_attempts_exhausts_after_n {T : Type}
    (func : Nat → FnOutcome T) (hf : ∀ n, func n = FnOutcome.noValue)
    (name : String) (N : Nat) (hN : 1 ≤ N) :
    (∀ i, i < N - 1 →
      (TaskWithAttempts.Run
        (TaskWithAttempts.runIter (attemptsTaskWithPromise name (N : Int) func) i)).1 =
        RunResult.Deferred) ∧
    (TaskWithAttempts.Run
        (TaskWithAttempts.runIter (attemptsTaskWithPromise name (N : Int) func) (N - 1))).1 =
      RunResult.Ok ∧
    (TaskWithAttempts.Run
        (TaskWithAttempts.runIter (attemptsTaskWithPromise name (N : Int) func) (N - 1))).2.base.m_promise =
      none ∧
    (TaskWithAttempts.Run
        (TaskWithAttempts.runIter (attemptsTaskWithPromise name (N : Int) func) (N - 1))).2.base.released =
      [PromiseFate.broken] := by
  have hinv := taskWithAttempts_never_ready_invariant func hf name N
  obtain ⟨e1, e2, e3, e4, e5⟩ := hinv (N - 1) (by omega)
  have hfc : (TaskWithAttempts.runIter (attemptsTaskWithPromise name (N : Int) func) (N - 1)).base.m_func
      (TaskWithAttempts.runIter (attemptsTaskWithPromise name (N : Int) func) (N - 1)).base.calls
      = FnOutcome.noValue := by rw [e1, hf]
  have ha1 : (TaskWithAttempts.runIter (attemptsTaskWithPromise name (N : Int) func) (N - 1)).m_attempts = 1 := by
    rw [e5]; omega
  have hstep := taskWithAttempts_run_exhaust_step _ hfc ha1
  refine ⟨?_, ?_, ?_, ?_⟩
  · intro i hi
    obtain ⟨f1, f2, f3, f4, f5⟩ := hinv i (by omega)
    have hfci : (TaskWithAttempts.runIter (attemptsTaskWithPromise name (N : Int) func) i).base.m_func
        (TaskWithAttempts.runIter (attemptsTaskWithPromise name (N : Int) func) i).base.calls
        = FnOutcome.noValue := by rw [f1, hf]
    have hani : (TaskWithAttempts.runIter (attemptsTaskWithPromise name (N : Int) func) i).m_attempts ≠ 1 := by
      rw [f5]; omega
    rw [taskWithAttempts_run_deferred_step _ hfci hani]
  · rw [hstep]
  · rw [hstep]
  · rw [hstep]
    simp [e3, e4, releaseFate]

/-- C3 witness: with attempts = 2 and a never-ready callable, the second Run
call returns Ok (the budget is exhausted there). -/
theorem task_with_attempts_exhausts_after_n_witness :
    (TaskWithAttempts.Run
        (TaskWithAttempts.runIter
          (attemptsTaskWithPromise "t" 2 (fun _ => (FnOutcome.noValue : FnOutcome Nat))) 1)).1 =
      RunResult.Ok :=
  (task_with_attempts_exhausts_after_n (fun _ => FnOutcome.noValue) (fun _ => rfl) "t" 2
    (by omega)).2.1

/-- C6 witness: a concrete named task reports exactly the given name. -/
theorem task_name_round_trip_witness :
    NamedBasicTask.GetName (make_task "alpha" (fun _ => FnOutcome.yields (1 : Nat))) =
      "alpha" :=
  (task_name_round_trip "alpha" (fun _ => FnOutcome.yields (1 : Nat)) 0).1
